import Mathlib

/-!
Verification of the semantic-analysis core of the `mun` toolchain
(item-tree construction, namespace/scope model, source correlation,
mutability checking), shallowly embedded from the Rust sources
`crates/mun_hir/src/item_tree/lower.rs`, `crates/mun_hir/src/item_scope.rs`,
`crates/mun_hir/src/ty/infer/mut_bind.rs` and
`crates/mun_hir/src/code_model/src.rs`.
-/

namespace Mun

/-- Interned identifier names (`Name` wraps a string in the source). -/
abbrev Name := String

/-- Source `Name::new_tuple_field(idx)`: the synthesized positional name of a tuple field.
Modelled from the spec: `Name::new_tuple_field` is not under the provided sources;
the spec only requires synthesized positional names for index `i`. -/
def Name.new_tuple_field (i : Nat) : Name := toString i

/-- An unlowered syntactic type node (`ast::TypeRef`); opaque to this development,
identified by its node id. -/
structure AstTypeRef where
  node : Nat
deriving DecidableEq, Repr

/-- An unlowered syntactic visibility marker (`ast::Visibility`); opaque here. -/
structure AstVisibility where
  node : Nat
deriving DecidableEq, Repr

/-- Source `TypeRef`: a structurally lowered type expression or one of the sentinel
variants `Empty`/`Error`.  `TypeRef::from_ast` (defined outside the provided
sources) structurally lowers a present node; it is kept opaque as the
injection `fromAst`. -/
inductive TypeRef where
  | fromAst (node : AstTypeRef)
  | empty
  | error
deriving DecidableEq, Repr

/-- Source `RawVisibility`: the unresolved syntactic visibility form.
Modelled from the spec: `RawVisibility::from_ast` is not under the provided
sources; the spec treats it as a pure function of the optional syntactic
marker, so it is kept opaque as an injection. -/
inductive RawVisibility where
  | fromAst (v : Option AstVisibility)
deriving DecidableEq, Repr

/-- Identity of a resolved item definition (`ItemDefinitionId`). -/
inductive ItemDefinitionId where
  | functionId (i : Nat)
  | structId (i : Nat)
  | typeAliasId (i : Nat)
  | constDefId (i : Nat)
  | primitiveType (i : Nat)
  | moduleId (i : Nat)
deriving DecidableEq, Repr

/-- Resolved, comparable visibility.  Modelled from the spec: the resolved
`Visibility` type is not under the provided sources; the spec describes it as
public vs module-scoped (anchored at a module). -/
inductive Visibility where
  | publicVis
  | moduleVis (m : Nat)
deriving DecidableEq, Repr

/-- Source `PerNs<T>`: a record with two optional slots, `types` and `values`.
Modelled from the spec: the `PerNs` definition itself is not under the
provided sources (only its uses are); the spec fixes it as a paired-optional
record. -/
structure PerNs (α : Type) where
  types : Option α
  values : Option α
deriving DecidableEq, Repr

/-- Source `PerNs::types(t)` constructor of the source (renamed: `types` is the field). -/
def PerNs.justTypes (t : α) : PerNs α := ⟨some t, none⟩

/-- Source `PerNs::values(v)` constructor of the source (renamed: `values` is the field). -/
def PerNs.justValues (v : α) : PerNs α := ⟨none, some v⟩

/-- Source `PerNs::both(t, v)` constructor of the source. -/
def PerNs.both (t v : α) : PerNs α := ⟨some t, some v⟩

/-- Source `PerNs::from_definition` (item_scope.rs): which namespaces an item
definition populates. -/
def PerNs.from_definition (d : ItemDefinitionId) (vis : Visibility)
    (has_constructor : Bool) : PerNs (ItemDefinitionId × Visibility) :=
  match d with
  | .functionId _ => PerNs.justValues (d, vis)
  | .structId _ =>
      if has_constructor then PerNs.both (d, vis) (d, vis)
      else PerNs.justTypes (d, vis)
  | .typeAliasId _ => PerNs.justTypes (d, vis)
  | .constDefId _ => PerNs.justTypes (d, vis)
  | .primitiveType _ => PerNs.justTypes (d, vis)
  | .moduleId _ => PerNs.justTypes (d, vis)

/-- Source `ItemScope` (item_scope.rs): per-namespace name tables plus the list of
definitions declared in the scope.  The `FxHashMap`s are embedded as
functions from names to optional entries. -/
structure ItemScope where
  types : Name → Option (ItemDefinitionId × Visibility)
  values : Name → Option (ItemDefinitionId × Visibility)
  defs : List ItemDefinitionId

/-- The default (empty) scope, `ItemScope::default()`. -/
def ItemScope.empty : ItemScope := ⟨fun _ => none, fun _ => none, []⟩

/-- Source `ItemScope::add_definition`. -/
def ItemScope.add_definition (s : ItemScope) (d : ItemDefinitionId) : ItemScope :=
  { s with defs := s.defs ++ [d] }

/-- Source `ItemScope::add_resolution`: insert the populated slots of `d` into the
corresponding namespace maps. -/
def ItemScope.add_resolution (s : ItemScope) (name : Name)
    (d : PerNs (ItemDefinitionId × Visibility)) : ItemScope :=
  let s1 := match d.types with
    | some tv => { s with types := fun k => if k = name then some tv else s.types k }
    | none => s
  match d.values with
  | some vv => { s1 with values := fun k => if k = name then some vv else s1.values k }
  | none => s1

/-- Source `ItemScope::get`. -/
def ItemScope.get (s : ItemScope) (name : Name) :
    PerNs (ItemDefinitionId × Visibility) :=
  ⟨s.types name, s.values name⟩

/-- A sequence of `add_resolution` calls for one name, first to last. -/
def ItemScope.add_resolutions (s : ItemScope) (name : Name)
    (ds : List (PerNs (ItemDefinitionId × Visibility))) : ItemScope :=
  ds.foldl (fun acc d => acc.add_resolution name d) s

/-- The last populated slot among a sequence of optional slots: a populated
slot further down the list wins over an earlier one. -/
def lastPopulated : List (Option α) → Option α
  | [] => none
  | x :: l => (lastPopulated l).or x

/-! ## Syntax tree of one file (the external syntax-layer contract, §6) -/

/-- A function parameter node (`ast::Param`): optional type ascription. -/
structure AstParam where
  ascribed_type : Option AstTypeRef
deriving DecidableEq, Repr

/-- A return-type node (`ast::RetType`): optional type node. -/
structure AstRetType where
  type_ref : Option AstTypeRef
deriving DecidableEq, Repr

/-- Source `ast::FunctionDef` accessors used by lowering. -/
structure AstFunctionDef where
  name : Option Name
  visibility : Option AstVisibility
  param_list : Option (List AstParam)
  ret_type : Option AstRetType
  is_foreign : Bool  -- `is_extern` in the Rust source
  ast_id : Nat
deriving DecidableEq, Repr

/-- Source `ast::RecordFieldDef`: optional name and optional type ascription. -/
structure AstRecordFieldDef where
  name : Option Name
  ascribed_type : Option AstTypeRef
deriving DecidableEq, Repr

/-- Source `ast::TupleFieldDef`: optional type node. -/
structure AstTupleFieldDef where
  type_ref : Option AstTypeRef
deriving DecidableEq, Repr

/-- Source `ast::StructKind`: record, tuple or unit struct body. -/
inductive AstStructKind where
  | record (fields : List AstRecordFieldDef)
  | tuple (fields : List AstTupleFieldDef)
  | unit
deriving DecidableEq, Repr

/-- Source `ast::StructDef` accessors used by lowering. -/
structure AstStructDef where
  name : Option Name
  visibility : Option AstVisibility
  kind : AstStructKind
  ast_id : Nat
deriving DecidableEq, Repr

/-- Source `ast::TypeAliasDef` accessors used by lowering. -/
structure AstTypeAliasDef where
  name : Option Name
  visibility : Option AstVisibility
  type_ref : Option AstTypeRef
  ast_id : Nat
deriving DecidableEq, Repr

/-- Source `ast::ConstDef` accessors used by lowering. -/
structure AstConstDef where
  name : Option Name
  visibility : Option AstVisibility
  type_ref : Option AstTypeRef
  ast_id : Nat
deriving DecidableEq, Repr

/-- Source `ast::ModuleItem` (tagged by `ModuleItemKind`). -/
inductive AstModuleItem where
  | functionDef (f : AstFunctionDef)
  | structDef (s : AstStructDef)
  | typeAliasDef (t : AstTypeAliasDef)
  | constDef (c : AstConstDef)
deriving DecidableEq, Repr

/-- The declared name of a module item (`name()` of the underlying node). -/
def AstModuleItem.declared_name : AstModuleItem → Option Name
  | .functionDef f => f.name
  | .structDef s => s.name
  | .typeAliasDef t => t.name
  | .constDef c => c.name

/-! ## Item tree (item_tree/lower.rs) -/

/-- A lowered `Function` record. -/
structure Function where
  name : Name
  visibility : Nat
  is_foreign : Bool  -- `is_extern` in the Rust source
  params : List TypeRef
  ret_type : TypeRef
  ast_id : Nat
deriving DecidableEq, Repr

/-- Source `Fields`: the field range of a struct, a `[start, stop)` index range into
the shared field arena for record and tuple structs. -/
inductive Fields where
  | record (start stop : Nat)
  | tuple (start stop : Nat)
  | unit
deriving DecidableEq, Repr

/-- The index range of a `Fields` value, when it has one. -/
def Fields.range_of : Fields → Option (Nat × Nat)
  | .record s e => some (s, e)
  | .tuple s e => some (s, e)
  | .unit => none

/-- Source `StructDefKind`. -/
inductive StructDefKind where
  | record
  | tuple
  | unit
deriving DecidableEq, Repr

/-- A lowered `Struct` record. -/
structure Struct where
  name : Name
  visibility : Nat
  fields : Fields
  ast_id : Nat
  kind : StructDefKind
deriving DecidableEq, Repr

/-- A lowered `TypeAlias` record. -/
structure TypeAlias where
  name : Name
  visibility : Nat
  type_ref : Option TypeRef
  ast_id : Nat
deriving DecidableEq, Repr

/-- A lowered `Const` record. -/
structure Const where
  name : Name
  visibility : Nat
  type_ref : Option TypeRef
  ast_id : Nat
deriving DecidableEq, Repr

/-- A lowered `Field` (name plus lowered type reference). -/
structure Field where
  name : Name
  type_ref : TypeRef
deriving DecidableEq, Repr

/-- Source `ModItem`: a tagged reference to an item in its kind-specific arena. -/
inductive ModItem where
  | function (index : Nat)
  | struct (index : Nat)
  | typeAlias (index : Nat)
  | const (index : Nat)
deriving DecidableEq, Repr

/-- Source `ItemTreeData`: one append-only arena per item kind (arenas are embedded
as lists; an `Idx` is a position). -/
structure ItemTreeData where
  functions : List Function
  structs : List Struct
  type_aliases : List TypeAlias
  constants : List Const
  fields : List Field
  visibilities : List RawVisibility
deriving DecidableEq, Repr

/-- Source `ItemTreeData::default()`. -/
def ItemTreeData.empty : ItemTreeData := ⟨[], [], [], [], [], []⟩

/-- Source `ItemTreeDiagnostic` (diagnostics.rs): duplicate top-level definition. -/
inductive ItemTreeDiagnostic where
  | duplicateDefinition (name : Name) (first : ModItem) (second : ModItem)
deriving DecidableEq, Repr

/-- The name carried by a diagnostic. -/
def ItemTreeDiagnostic.diag_name : ItemTreeDiagnostic → Name
  | .duplicateDefinition n _ _ => n

/-- The finished `ItemTree`. -/
structure ItemTree where
  file_id : Nat
  top_level : List ModItem
  data : ItemTreeData
  diagnostics : List ItemTreeDiagnostic
deriving DecidableEq, Repr

/-- The lowering `Context` (the AST id map is embedded in the AST nodes). -/
structure Context where
  file : Nat
  data : ItemTreeData
  diagnostics : List ItemTreeDiagnostic
deriving DecidableEq, Repr

/-- Source `Context::new`. -/
def Context.new (file : Nat) : Context := ⟨file, ItemTreeData.empty, []⟩

/-- Source `Context::lower_type_ref` (takes `&self` in the source but ignores it). -/
def lower_type_ref (t : AstTypeRef) : TypeRef := TypeRef.fromAst t

/-- Source `Context::lower_type_ref_opt`: a present node is lowered, an absent one
degrades to the sentinel `TypeRef::Error`. -/
def lower_type_ref_opt (t : Option AstTypeRef) : TypeRef :=
  (t.map lower_type_ref).getD TypeRef.error

/-- Source `Context::lower_visibility`: allocates the raw visibility and returns its id. -/
def Context.lower_visibility (ctx : Context) (v : Option AstVisibility) :
    Context × Nat :=
  ({ ctx with data :=
      { ctx.data with visibilities := ctx.data.visibilities ++ [RawVisibility.fromAst v] } },
   ctx.data.visibilities.length)

/-- Source `Context::lower_record_field` (takes `&self` in the source but only for
the pure type-ref lowering): `None` when the field has no name. -/
def lower_record_field (f : AstRecordFieldDef) : Option Field :=
  f.name.map (fun n => ⟨n, lower_type_ref_opt f.ascribed_type⟩)

/-- Source `Context::lower_tuple_field`: synthesized positional name. -/
def lower_tuple_field (idx : Nat) (f : AstTupleFieldDef) : Field :=
  ⟨Name.new_tuple_field idx, lower_type_ref_opt f.type_ref⟩

/-- Source `Context::lower_record_fields`: snapshot the arena length, lower each
field in declaration order (nameless fields are skipped), snapshot again. -/
def Context.lower_record_fields (ctx : Context) (fs : List AstRecordFieldDef) :
    Context × Nat × Nat :=
  let start := ctx.data.fields.length
  let newFields := fs.filterMap lower_record_field
  let ctx' := { ctx with data := { ctx.data with fields := ctx.data.fields ++ newFields } }
  (ctx', start, ctx'.data.fields.length)

/-- Source `Context::lower_tuple_fields`: same two-pointer range capture, every
positional field is lowered. -/
def Context.lower_tuple_fields (ctx : Context) (fs : List AstTupleFieldDef) :
    Context × Nat × Nat :=
  let start := ctx.data.fields.length
  let newFields := (fs.enum).map (fun p => lower_tuple_field p.1 p.2)
  let ctx' := { ctx with data := { ctx.data with fields := ctx.data.fields ++ newFields } }
  (ctx', start, ctx'.data.fields.length)

/-- Source `Context::lower_fields`. -/
def Context.lower_fields (ctx : Context) (k : AstStructKind) : Context × Fields :=
  match k with
  | .record fs =>
      let (ctx', s, e) := ctx.lower_record_fields fs
      (ctx', Fields.record s e)
  | .tuple fs =>
      let (ctx', s, e) := ctx.lower_tuple_fields fs
      (ctx', Fields.tuple s e)
  | .unit => (ctx, Fields.unit)

/-- Source `Context::lower_function`: `None` (with the context untouched) when the
name is absent; otherwise allocate and return the new index. -/
def Context.lower_function (ctx : Context) (func : AstFunctionDef) :
    Context × Option Nat :=
  match func.name with
  | none => (ctx, none)
  | some name =>
    let (ctx1, visibility) := ctx.lower_visibility func.visibility
    let params := match func.param_list with
      | some ps => ps.map (fun p => lower_type_ref_opt p.ascribed_type)
      | none => []
    let ret_type := match func.ret_type.bind (fun rt => rt.type_ref) with
      | none => TypeRef.empty
      | some ty => lower_type_ref ty
    let res : Function :=
      ⟨name, visibility, func.is_foreign, params, ret_type, func.ast_id⟩
    ({ ctx1 with data := { ctx1.data with functions := ctx1.data.functions ++ [res] } },
     some ctx1.data.functions.length)

/-- Source `Context::lower_struct`. -/
def Context.lower_struct (ctx : Context) (strukt : AstStructDef) :
    Context × Option Nat :=
  match strukt.name with
  | none => (ctx, none)
  | some name =>
    let (ctx1, visibility) := ctx.lower_visibility strukt.visibility
    let (ctx2, fields) := ctx1.lower_fields strukt.kind
    let kind := match strukt.kind with
      | .record _ => StructDefKind.record
      | .tuple _ => StructDefKind.tuple
      | .unit => StructDefKind.unit
    let res : Struct := ⟨name, visibility, fields, strukt.ast_id, kind⟩
    ({ ctx2 with data := { ctx2.data with structs := ctx2.data.structs ++ [res] } },
     some ctx2.data.structs.length)

/-- Source `Context::lower_type_alias`. -/
def Context.lower_type_alias (ctx : Context) (ta : AstTypeAliasDef) :
    Context × Option Nat :=
  match ta.name with
  | none => (ctx, none)
  | some name =>
    let (ctx1, visibility) := ctx.lower_visibility ta.visibility
    let type_ref := ta.type_ref.map lower_type_ref
    let res : TypeAlias := ⟨name, visibility, type_ref, ta.ast_id⟩
    ({ ctx1 with data := { ctx1.data with type_aliases := ctx1.data.type_aliases ++ [res] } },
     some ctx1.data.type_aliases.length)

/-- Source `Context::lower_const_def`. -/
def Context.lower_const_def (ctx : Context) (cd : AstConstDef) :
    Context × Option Nat :=
  match cd.name with
  | none => (ctx, none)
  | some name =>
    let (ctx1, visibility) := ctx.lower_visibility cd.visibility
    let type_ref := cd.type_ref.map lower_type_ref
    let res : Const := ⟨name, visibility, type_ref, cd.ast_id⟩
    ({ ctx1 with data := { ctx1.data with constants := ctx1.data.constants ++ [res] } },
     some ctx1.data.constants.length)

/-- Source `Context::lower_mod_item`: dispatch on the item kind. -/
def Context.lower_mod_item (ctx : Context) (item : AstModuleItem) :
    Context × Option ModItem :=
  match item with
  | .functionDef f =>
      let (ctx', r) := ctx.lower_function f
      (ctx', r.map ModItem.function)
  | .structDef s =>
      let (ctx', r) := ctx.lower_struct s
      (ctx', r.map ModItem.struct)
  | .typeAliasDef t =>
      let (ctx', r) := ctx.lower_type_alias t
      (ctx', r.map ModItem.typeAlias)
  | .constDef c =>
      let (ctx', r) := ctx.lower_const_def c
      (ctx', r.map ModItem.const)

/-- The `flat_map` collection over the file's items. -/
def Context.lower_items_list : Context → List AstModuleItem → Context × List ModItem
  | ctx, [] => (ctx, [])
  | ctx, it :: rest =>
      let (ctx1, mi) := ctx.lower_mod_item it
      let (ctx2, tl) := ctx1.lower_items_list rest
      (ctx2, mi.toList ++ tl)

/-- The declared name of a lowered `ModItem`, read back from the arenas
(always a valid index for items produced by lowering). -/
def ItemTreeData.mod_item_name (data : ItemTreeData) : ModItem → Name
  | .function i => (data.functions[i]?.map Function.name).getD ""
  | .struct i => (data.structs[i]?.map Struct.name).getD ""
  | .typeAlias i => (data.type_aliases[i]?.map TypeAlias.name).getD ""
  | .const i => (data.constants[i]?.map Const.name).getD ""

/-- Lookup in the duplicate-check set (a `HashMap<Name, &ModItem>`; entries
have pairwise distinct keys, so an association list is an exact embedding). -/
def find_first (set : List (Name × ModItem)) (n : Name) : Option ModItem :=
  (set.find? (fun e => e.1 == n)).map Prod.snd

/-- The duplicate-name pass over the top-level item list: the first occurrence
of each name enters the set, every later occurrence emits a
`DuplicateDefinition` diagnostic carrying the first occurrence. -/
def check_duplicates (nameOf : ModItem → Name) :
    List ModItem → List (Name × ModItem) → List ItemTreeDiagnostic
  | [], _ => []
  | it :: rest, set =>
      match find_first set (nameOf it) with
      | some first =>
          ItemTreeDiagnostic.duplicateDefinition (nameOf it) first it
            :: check_duplicates nameOf rest set
      | none => check_duplicates nameOf rest ((nameOf it, it) :: set)

/-- Source `Context::lower_module_items`: lower every item, then run the
duplicate-name pass, and assemble the `ItemTree`. -/
def Context.lower_module_items (ctx : Context) (items : List AstModuleItem) :
    ItemTree :=
  let (ctx', top_level) := ctx.lower_items_list items
  let dups := check_duplicates (ctx'.data.mod_item_name) top_level []
  ⟨ctx'.file, top_level, ctx'.data, ctx'.diagnostics ++ dups⟩

/-! ## Well-formedness of the produced tree -/

/-- A `ModItem` reference is valid when its index lies inside its arena. -/
def ItemTreeData.mod_item_valid (data : ItemTreeData) : ModItem → Prop
  | .function i => i < data.functions.length
  | .struct i => i < data.structs.length
  | .typeAlias i => i < data.type_aliases.length
  | .const i => i < data.constants.length

instance (data : ItemTreeData) (m : ModItem) :
    Decidable (data.mod_item_valid m) := by
  cases m <;> simp [ItemTreeData.mod_item_valid] <;> infer_instance

/-- A field range is well formed for a field arena of length `flen`. -/
def Fields.range_ok (flen : Nat) : Fields → Prop
  | .record s e => s ≤ e ∧ e ≤ flen
  | .tuple s e => s ≤ e ∧ e ≤ flen
  | .unit => True

instance (flen : Nat) (f : Fields) : Decidable (f.range_ok flen) := by
  cases f <;> simp [Fields.range_ok] <;> infer_instance

/-- Well-formedness of an `ItemTree`: every top-level reference indexes a
live arena entry and every struct's field range lies inside the field
arena. -/
def ItemTree.wf (tree : ItemTree) : Prop :=
  (∀ it ∈ tree.top_level, tree.data.mod_item_valid it) ∧
  (∀ s ∈ tree.data.structs, s.fields.range_ok tree.data.fields.length)

instance (tree : ItemTree) : Decidable tree.wf := by
  unfold ItemTree.wf; infer_instance

/-- Pairwise ordering of struct field ranges: ranges of structs listed
earlier end before ranges of structs listed later begin, and every range is
well formed.  This is the disjointness invariant of sequential field-arena
allocation. -/
def struct_ranges_ordered (structs : List Struct) (flen : Nat) : Prop :=
  (∀ s ∈ structs, s.fields.range_ok flen) ∧
  (∀ (i j : Nat) (si sj : Struct) (ri rj : Nat × Nat), i < j →
    structs[i]? = some si → structs[j]? = some sj →
    si.fields.range_of = some ri → sj.fields.range_of = some rj →
    ri.2 ≤ rj.1)

/-- Arena growth: lowering only appends, so every arena length is monotone. -/
def data_le (d1 d2 : ItemTreeData) : Prop :=
  d1.functions.length ≤ d2.functions.length ∧
  d1.structs.length ≤ d2.structs.length ∧
  d1.type_aliases.length ≤ d2.type_aliases.length ∧
  d1.constants.length ≤ d2.constants.length ∧
  d1.fields.length ≤ d2.fields.length

/-- The struct-range invariant carried through lowering. -/
def ctx_inv (ctx : Context) : Prop :=
  struct_ranges_ordered ctx.data.structs ctx.data.fields.length

/-! ## Mutability / place-expression checker (ty/infer/mut_bind.rs)

The expression body, patterns, path resolution and value-namespace results
live outside the provided sources (`expr.rs`, `resolve.rs`); they are
modelled from the spec's §4.5 description of the lowered expression forms
and value-namespace path resolution. -/

/-- An identifier path. -/
structure Path where
  segments : List Name
deriving DecidableEq, Repr

/-- Source `BindingAnnotation`: whether a binding pattern is explicitly mutable. -/
inductive BindingAnnotation where
  | unannotated
  | mutable
deriving DecidableEq, Repr

/-- Lowered patterns; a local binding records its binding mode. -/
inductive Pat where
  | bind (mode : BindingAnnotation) (name : Name)
  | wild
  | missing
deriving DecidableEq, Repr

/-- Lowered expression forms (sub-expressions are arena indices). -/
inductive Expr where
  | path (p : Path)
  | field (expr : Nat) (name : Name)
  | literal
  | call (callee : Nat) (args : List Nat)
  | binaryOp (lhs rhs : Nat)
  | missing
deriving DecidableEq, Repr

/-- A lowered function body: expression and pattern arenas. -/
structure Body where
  exprs : List Expr
  pats : List Pat
deriving DecidableEq, Repr

/-- Source `ValueNs`: the result of value-namespace path resolution.  Modelled from
the spec: only the local-binding case is inspected by the checker. -/
inductive ValueNs where
  | localBinding (pat : Nat)
  | functionId (f : Nat)
  | constId (c : Nat)
  | structId (s : Nat)
deriving DecidableEq, Repr

/-- The resolver context, embedded as its observable behaviour: fully
resolving a path in the value namespace (`resolve_path_as_value_fully`). -/
def Resolver := Path → Option ValueNs

/-- Source `check_mut_path`: true iff the path resolves to a local binding whose
pattern is an explicitly mutable binding. -/
def check_mut_path (body : Body) (resolver : Resolver) (path : Path) : Bool :=
  match resolver path with
  | some (ValueNs.localBinding pat) =>
      match body.pats[pat]? with
      | some (Pat.bind BindingAnnotation.mutable _) => true
      | _ => false
  | _ => false

/-- Source `check_mut_bind`: a path is checked through `check_mut_path`, a field
projection delegates to its base, every other form is `false`.  The source
recurses through the arena; bodies produced by lowering allocate every
sub-expression before its parent, so the recursion on the index decreases —
the bounds check below makes the embedding total and coincides with the
source on such bodies. -/
def check_mut_bind (body : Body) (resolver : Resolver) (e : Nat) : Bool :=
  match body.exprs[e]? with
  | some (Expr.path p) => check_mut_path body resolver p
  | some (Expr.field base _) =>
      if h : base < e then check_mut_bind body resolver base else false
  | _ => false
termination_by e

/-! ## Source correlation for struct fields (code_model/src.rs)

`StructField::source` queries the parent struct's source AST and its
lowered field data through the database; here the function receives the
values those queries return.  The lowered field arena iterates as
(index, data) pairs in allocation order; `none` models the fatal `unwrap`
failure. -/

/-- Per-field lowered data of a struct (`StructFieldData`); modelled from the
spec: only the arena iteration order and field identities matter to the
lookup. -/
structure StructFieldData where
  name : Name
deriving DecidableEq, Repr

/-- Source `StructField::source`: collect the syntactic record-field list (empty for
any other struct kind), zip it against the lowered field arena iteration,
and find the pair carrying this field's id. -/
def struct_field_source (file_id : Nat) (parent_src : AstStructDef)
    (parent_fields : List StructFieldData) (field_id : Nat) :
    Option (Nat × AstRecordFieldDef) :=
  let field_sources : List AstRecordFieldDef :=
    match parent_src.kind with
    | .record r => r
    | _ => []
  let found := (field_sources.zip parent_fields.enum).find?
    (fun x => x.2.1 == field_id)
  found.map (fun x => (file_id, x.1))

/-! ## Helper lemmas -/

theorem add_resolution_get_same (s : ItemScope) (name : Name)
    (d : PerNs (ItemDefinitionId × Visibility)) :
    (s.add_resolution name d).get name =
      ⟨d.types.or (s.types name), d.values.or (s.values name)⟩ := by
  obtain ⟨t, v⟩ := d
  cases t <;> cases v <;>
    simp [ItemScope.add_resolution, ItemScope.get, Option.or]

theorem add_resolution_get_ne (s : ItemScope) (name : Name)
    (d : PerNs (ItemDefinitionId × Visibility)) (m : Name) (hm : m ≠ name) :
    (s.add_resolution name d).get m = s.get m := by
  obtain ⟨t, v⟩ := d
  cases t <;> cases v <;>
    simp [ItemScope.add_resolution, ItemScope.get, hm]

theorem add_resolutions_get (name : Name) :
    ∀ (ds : List (PerNs (ItemDefinitionId × Visibility))) (s : ItemScope),
    (s.add_resolutions name ds).get name =
      ⟨(lastPopulated (ds.map PerNs.types)).or (s.types name),
       (lastPopulated (ds.map PerNs.values)).or (s.values name)⟩
  | [], s => by simp [ItemScope.add_resolutions, ItemScope.get, lastPopulated]
  | d :: ds, s => by
      have step : s.add_resolutions name (d :: ds)
          = (s.add_resolution name d).add_resolutions name ds := rfl
      rw [step, add_resolutions_get name ds]
      have ht : (s.add_resolution name d).types name
          = d.types.or (s.types name) :=
        congrArg PerNs.types (add_resolution_get_same s name d)
      have hv : (s.add_resolution name d).values name
          = d.values.or (s.values name) :=
        congrArg PerNs.values (add_resolution_get_same s name d)
      rw [ht, hv]
      simp [lastPopulated, Option.or_assoc]

/-! ## Claim theorems -/

/-- C3: `PerNs::from_definition` populates namespaces exactly per the fixed
table: a function populates only the value namespace; a struct with a
constructor populates both namespaces with the same identity and visibility;
a struct without a constructor, a type alias, a constant, a primitive type,
and a module each populate only the type namespace. -/
theorem C3_from_definition_table (vis : Visibility) (hc : Bool) (i : Nat) :
    PerNs.from_definition (.functionId i) vis hc
      = ⟨none, some (.functionId i, vis)⟩ ∧
    PerNs.from_definition (.structId i) vis true
      = ⟨some (.structId i, vis), some (.structId i, vis)⟩ ∧
    PerNs.from_definition (.structId i) vis false
      = ⟨some (.structId i, vis), none⟩ ∧
    PerNs.from_definition (.typeAliasId i) vis hc
      = ⟨some (.typeAliasId i, vis), none⟩ ∧
    PerNs.from_definition (.constDefId i) vis hc
      = ⟨some (.constDefId i, vis), none⟩ ∧
    PerNs.from_definition (.primitiveType i) vis hc
      = ⟨some (.primitiveType i, vis), none⟩ ∧
    PerNs.from_definition (.moduleId i) vis hc
      = ⟨some (.moduleId i, vis), none⟩ :=
  ⟨rfl, rfl, rfl, rfl, rfl, rfl, rfl⟩

/-- C4: each `add_resolution` call overwrites the entry for the supplied name
in exactly the namespaces whose `PerNs` slot is populated, leaves the other
namespace and all other names unchanged, and after a sequence of calls `get`
returns, per namespace, the entry of the last call that populated that
(name, namespace) pair — the empty slot when no call did. -/
theorem C4_add_resolution_last_wins :
    (∀ (s : ItemScope) (name : Name) (d : PerNs (ItemDefinitionId × Visibility)),
      (s.add_resolution name d).get name
        = ⟨d.types.or ((s.get name).types), d.values.or ((s.get name).values)⟩ ∧
      ∀ m, m ≠ name → (s.add_resolution name d).get m = s.get m) ∧
    (∀ (s : ItemScope) (name : Name)
        (ds : List (PerNs (ItemDefinitionId × Visibility))),
      (s.add_resolutions name ds).get name
        = ⟨(lastPopulated (ds.map PerNs.types)).or ((s.get name).types),
           (lastPopulated (ds.map PerNs.values)).or ((s.get name).values)⟩) ∧
    (∀ (name : Name) (ds : List (PerNs (ItemDefinitionId × Visibility))),
      (ItemScope.empty.add_resolutions name ds).get name
        = ⟨lastPopulated (ds.map PerNs.types),
           lastPopulated (ds.map PerNs.values)⟩) := by
  refine ⟨fun s name d => ⟨add_resolution_get_same s name d,
      fun m hm => add_resolution_get_ne s name d m hm⟩,
    fun s name ds => add_resolutions_get name ds s,
    fun name ds => ?_⟩
  have h := add_resolutions_get name ds ItemScope.empty
  simpa [ItemScope.empty, ItemScope.get] using h

/-- Witness for C4 at concrete inputs: two calls for `"x"`, the first
populating both namespaces, the second only the value namespace; the other
name `"y"` is untouched. -/
theorem C4_add_resolution_last_wins_witness :
    (ItemScope.empty.add_resolutions "x"
        [PerNs.both (.structId 0, .publicVis) (.structId 0, .publicVis),
         PerNs.justValues (.functionId 1, .publicVis)]).get "x"
      = ⟨some (.structId 0, .publicVis), some (.functionId 1, .publicVis)⟩ ∧
    (ItemScope.empty.add_resolution "x"
        (PerNs.justTypes (.structId 0, .publicVis))).get "y"
      = ItemScope.empty.get "y" := by
  constructor
  · rw [C4_add_resolution_last_wins.2.2 "x"
      [PerNs.both (.structId 0, .publicVis) (.structId 0, .publicVis),
       PerNs.justValues (.functionId 1, .publicVis)]]
    rfl
  · exact (C4_add_resolution_last_wins.1 ItemScope.empty "x"
      (PerNs.justTypes (.structId 0, .publicVis))).2 "y" (by decide)

/-- C2: `check_mut_bind` returns true on a field projection iff it returns
true on the base expression; returns true on a path iff the path resolves in
the value namespace to a local binding whose pattern is an explicitly
mutable binding; and returns false on every other expression form. -/
theorem C2_check_mut_bind_cases :
    (∀ (body : Body) (resolver : Resolver) (e base : Nat) (nm : Name),
      body.exprs[e]? = some (Expr.field base nm) → base < e →
      check_mut_bind body resolver e = check_mut_bind body resolver base) ∧
    (∀ (body : Body) (resolver : Resolver) (e : Nat) (p : Path),
      body.exprs[e]? = some (Expr.path p) →
      (check_mut_bind body resolver e = true ↔
        ∃ pat nm, resolver p = some (ValueNs.localBinding pat) ∧
          body.pats[pat]? = some (Pat.bind BindingAnnotation.mutable nm))) ∧
    (∀ (body : Body) (resolver : Resolver) (e : Nat) (ex : Expr),
      body.exprs[e]? = some ex →
      (∀ p, ex ≠ Expr.path p) → (∀ b nm, ex ≠ Expr.field b nm) →
      check_mut_bind body resolver e = false) := by
  refine ⟨?_, ?_, ?_⟩
  · intro body resolver e base nm h hb
    rw [check_mut_bind, h]
    simp [hb]
  · intro body resolver e p h
    rw [check_mut_bind, h]
    show check_mut_path body resolver p = true ↔ _
    constructor
    · intro htrue
      unfold check_mut_path at htrue
      split at htrue
      · next pat hr =>
          split at htrue
          · next nm hp => exact ⟨pat, nm, hr, hp⟩
          · exact absurd htrue (by simp)
      · exact absurd htrue (by simp)
    · rintro ⟨pat, nm, hr, hp⟩
      simp [check_mut_path, hr, hp]
  · intro body resolver e ex h hpath hfield
    rw [check_mut_bind, h]
    cases ex with
    | path p => exact absurd rfl (hpath p)
    | field b nm => exact absurd rfl (hfield b nm)
    | literal => rfl
    | call c a => rfl
    | binaryOp l r => rfl
    | missing => rfl

/-- Witness for C2: the body of `fn f(mut x) { x.f = ... }` — expression 0 is
the path `x`, expression 1 projects a field out of it; pattern 0 is the
mutable binding of `x`; and a literal expression 2 is never a place. -/
theorem C2_check_mut_bind_cases_witness :
    (check_mut_bind
        ⟨[Expr.path ⟨["x"]⟩, Expr.field 0 "f", Expr.literal],
         [Pat.bind BindingAnnotation.mutable "x"]⟩
        (fun _ => some (ValueNs.localBinding 0)) 1
      = check_mut_bind
        ⟨[Expr.path ⟨["x"]⟩, Expr.field 0 "f", Expr.literal],
         [Pat.bind BindingAnnotation.mutable "x"]⟩
        (fun _ => some (ValueNs.localBinding 0)) 0) ∧
    (check_mut_bind
        ⟨[Expr.path ⟨["x"]⟩, Expr.field 0 "f", Expr.literal],
         [Pat.bind BindingAnnotation.mutable "x"]⟩
        (fun _ => some (ValueNs.localBinding 0)) 0 = true) ∧
    (check_mut_bind
        ⟨[Expr.path ⟨["x"]⟩, Expr.field 0 "f", Expr.literal],
         [Pat.bind BindingAnnotation.mutable "x"]⟩
        (fun _ => some (ValueNs.localBinding 0)) 2 = false) := by
  refine ⟨?_, ?_, ?_⟩
  · exact C2_check_mut_bind_cases.1
      ⟨[Expr.path ⟨["x"]⟩, Expr.field 0 "f", Expr.literal],
       [Pat.bind BindingAnnotation.mutable "x"]⟩
      (fun _ => some (ValueNs.localBinding 0)) 1 0 "f" (by rfl) (by decide)
  · exact (C2_check_mut_bind_cases.2.1
      ⟨[Expr.path ⟨["x"]⟩, Expr.field 0 "f", Expr.literal],
       [Pat.bind BindingAnnotation.mutable "x"]⟩
      (fun _ => some (ValueNs.localBinding 0)) 0 ⟨["x"]⟩ (by rfl)).2
      ⟨0, "x", rfl, rfl⟩
  · exact C2_check_mut_bind_cases.2.2
      ⟨[Expr.path ⟨["x"]⟩, Expr.field 0 "f", Expr.literal],
       [Pat.bind BindingAnnotation.mutable "x"]⟩
      (fun _ => some (ValueNs.localBinding 0)) 2 Expr.literal (by rfl)
      (fun p => by simp) (fun b nm => by simp)

theorem lower_function_eq (ctx : Context) (f : AstFunctionDef) (nm : Name)
    (h : f.name = some nm) :
    ctx.lower_function f =
      ({ file := ctx.file,
         data := { functions := ctx.data.functions ++
                     [⟨nm, ctx.data.visibilities.length, f.is_foreign,
                       (match f.param_list with
                        | some ps => ps.map (fun p => lower_type_ref_opt p.ascribed_type)
                        | none => []),
                       (match f.ret_type.bind (fun rt => rt.type_ref) with
                        | none => TypeRef.empty
                        | some ty => lower_type_ref ty),
                       f.ast_id⟩],
                   structs := ctx.data.structs,
                   type_aliases := ctx.data.type_aliases,
                   constants := ctx.data.constants,
                   fields := ctx.data.fields,
                   visibilities := ctx.data.visibilities ++
                     [RawVisibility.fromAst f.visibility] },
         diagnostics := ctx.diagnostics },
       some ctx.data.functions.length) := by
  unfold Context.lower_function Context.lower_visibility
  rw [h]

theorem lower_struct_record_eq (ctx : Context) (s : AstStructDef) (nm : Name)
    (fs : List AstRecordFieldDef) (h : s.name = some nm)
    (hk : s.kind = .record fs) :
    ctx.lower_struct s =
      ({ file := ctx.file,
         data := { functions := ctx.data.functions,
                   structs := ctx.data.structs ++
                     [⟨nm, ctx.data.visibilities.length,
                       Fields.record ctx.data.fields.length
                         (ctx.data.fields.length
                           + (fs.filterMap lower_record_field).length),
                       s.ast_id, StructDefKind.record⟩],
                   type_aliases := ctx.data.type_aliases,
                   constants := ctx.data.constants,
                   fields := ctx.data.fields ++ fs.filterMap lower_record_field,
                   visibilities := ctx.data.visibilities ++
                     [RawVisibility.fromAst s.visibility] },
         diagnostics := ctx.diagnostics },
       some ctx.data.structs.length) := by
  unfold Context.lower_struct Context.lower_fields Context.lower_record_fields
    Context.lower_visibility
  rw [h, hk]
  simp

theorem lower_struct_tuple_eq (ctx : Context) (s : AstStructDef) (nm : Name)
    (fs : List AstTupleFieldDef) (h : s.name = some nm)
    (hk : s.kind = .tuple fs) :
    ctx.lower_struct s =
      ({ file := ctx.file,
         data := { functions := ctx.data.functions,
                   structs := ctx.data.structs ++
                     [⟨nm, ctx.data.visibilities.length,
                       Fields.tuple ctx.data.fields.length
                         (ctx.data.fields.length + fs.length),
                       s.ast_id, StructDefKind.tuple⟩],
                   type_aliases := ctx.data.type_aliases,
                   constants := ctx.data.constants,
                   fields := ctx.data.fields ++
                     fs.enum.map (fun p => lower_tuple_field p.1 p.2),
                   visibilities := ctx.data.visibilities ++
                     [RawVisibility.fromAst s.visibility] },
         diagnostics := ctx.diagnostics },
       some ctx.data.structs.length) := by
  unfold Context.lower_struct Context.lower_fields Context.lower_tuple_fields
    Context.lower_visibility
  rw [h, hk]
  simp

theorem lower_struct_unit_eq (ctx : Context) (s : AstStructDef) (nm : Name)
    (h : s.name = some nm) (hk : s.kind = .unit) :
    ctx.lower_struct s =
      ({ file := ctx.file,
         data := { functions := ctx.data.functions,
                   structs := ctx.data.structs ++
                     [⟨nm, ctx.data.visibilities.length, Fields.unit,
                       s.ast_id, StructDefKind.unit⟩],
                   type_aliases := ctx.data.type_aliases,
                   constants := ctx.data.constants,
                   fields := ctx.data.fields,
                   visibilities := ctx.data.visibilities ++
                     [RawVisibility.fromAst s.visibility] },
         diagnostics := ctx.diagnostics },
       some ctx.data.structs.length) := by
  unfold Context.lower_struct Context.lower_fields Context.lower_visibility
  rw [h, hk]

theorem lower_type_alias_eq (ctx : Context) (ta : AstTypeAliasDef) (nm : Name)
    (h : ta.name = some nm) :
    ctx.lower_type_alias ta =
      ({ file := ctx.file,
         data := { functions := ctx.data.functions,
                   structs := ctx.data.structs,
                   type_aliases := ctx.data.type_aliases ++
                     [⟨nm, ctx.data.visibilities.length,
                       ta.type_ref.map lower_type_ref, ta.ast_id⟩],
                   constants := ctx.data.constants,
                   fields := ctx.data.fields,
                   visibilities := ctx.data.visibilities ++
                     [RawVisibility.fromAst ta.visibility] },
         diagnostics := ctx.diagnostics },
       some ctx.data.type_aliases.length) := by
  unfold Context.lower_type_alias Context.lower_visibility
  rw [h]

theorem lower_const_def_eq (ctx : Context) (cd : AstConstDef) (nm : Name)
    (h : cd.name = some nm) :
    ctx.lower_const_def cd =
      ({ file := ctx.file,
         data := { functions := ctx.data.functions,
                   structs := ctx.data.structs,
                   type_aliases := ctx.data.type_aliases,
                   constants := ctx.data.constants ++
                     [⟨nm, ctx.data.visibilities.length,
                       cd.type_ref.map lower_type_ref, cd.ast_id⟩],
                   fields := ctx.data.fields,
                   visibilities := ctx.data.visibilities ++
                     [RawVisibility.fromAst cd.visibility] },
         diagnostics := ctx.diagnostics },
       some ctx.data.constants.length) := by
  unfold Context.lower_const_def Context.lower_visibility
  rw [h]

theorem lower_mod_item_of_name_none (ctx : Context) (item : AstModuleItem)
    (h : item.declared_name = none) :
    ctx.lower_mod_item item = (ctx, none) := by
  cases item with
  | functionDef f =>
      simp [AstModuleItem.declared_name] at h
      simp [Context.lower_mod_item, Context.lower_function, h]
  | structDef s =>
      simp [AstModuleItem.declared_name] at h
      simp [Context.lower_mod_item, Context.lower_struct, h]
  | typeAliasDef t =>
      simp [AstModuleItem.declared_name] at h
      simp [Context.lower_mod_item, Context.lower_type_alias, h]
  | constDef c =>
      simp [AstModuleItem.declared_name] at h
      simp [Context.lower_mod_item, Context.lower_const_def, h]

theorem lower_items_list_skip_nameless (item : AstModuleItem)
    (h : item.declared_name = none) :
    ∀ (xs : List AstModuleItem) (ctx : Context) (ys : List AstModuleItem),
    ctx.lower_items_list (xs ++ item :: ys) = ctx.lower_items_list (xs ++ ys)
  | [], ctx, ys => by
      show ctx.lower_items_list (item :: ys) = ctx.lower_items_list ys
      rw [Context.lower_items_list, lower_mod_item_of_name_none ctx item h]
      simp
  | x :: xs, ctx, ys => by
      rcases hx : ctx.lower_mod_item x with ⟨ctx1, mi⟩
      rw [List.cons_append, List.cons_append, Context.lower_items_list,
        Context.lower_items_list, hx]
      dsimp only
      rw [lower_items_list_skip_nameless item h xs ctx1 ys]

/-- C6: a module-level item whose declared name is absent is silently
dropped: `lower_mod_item` leaves the context untouched and emits nothing,
and the whole build of a file containing such an item equals the build of
the file without it (no arena allocation, no top-level entry, no
diagnostic, the rest still lowered). -/
theorem C6_nameless_item_dropped :
    (∀ (ctx : Context) (item : AstModuleItem),
      item.declared_name = none → ctx.lower_mod_item item = (ctx, none)) ∧
    (∀ (ctx : Context) (item : AstModuleItem) (xs ys : List AstModuleItem),
      item.declared_name = none →
      ctx.lower_module_items (xs ++ item :: ys)
        = ctx.lower_module_items (xs ++ ys)) := by
  refine ⟨fun ctx item h => lower_mod_item_of_name_none ctx item h,
    fun ctx item xs ys h => ?_⟩
  unfold Context.lower_module_items
  rw [lower_items_list_skip_nameless item h xs ctx ys]

/-- Witness for C6: a file with a nameless struct between two named
functions builds the same tree as the file without it. -/
theorem C6_nameless_item_dropped_witness :
    ((Context.new 0).lower_mod_item
        (AstModuleItem.structDef ⟨none, none, AstStructKind.unit, 7⟩)
      = (Context.new 0, none)) ∧
    ((Context.new 0).lower_module_items
        ([AstModuleItem.functionDef ⟨some "f", none, some [], none, false, 0⟩]
          ++ AstModuleItem.structDef ⟨none, none, AstStructKind.unit, 7⟩
          :: [AstModuleItem.functionDef ⟨some "g", none, none, none, false, 1⟩])
      = (Context.new 0).lower_module_items
        ([AstModuleItem.functionDef ⟨some "f", none, some [], none, false, 0⟩]
          ++ [AstModuleItem.functionDef ⟨some "g", none, none, none, false, 1⟩])) :=
  ⟨C6_nameless_item_dropped.1 (Context.new 0)
      (AstModuleItem.structDef ⟨none, none, AstStructKind.unit, 7⟩) rfl,
   C6_nameless_item_dropped.2 (Context.new 0)
      (AstModuleItem.structDef ⟨none, none, AstStructKind.unit, 7⟩)
      [AstModuleItem.functionDef ⟨some "f", none, some [], none, false, 0⟩]
      [AstModuleItem.functionDef ⟨some "g", none, none, none, false, 1⟩] rfl⟩

theorem data_le_refl (d : ItemTreeData) : data_le d d :=
  ⟨le_refl _, le_refl _, le_refl _, le_refl _, le_refl _⟩

theorem data_le_trans {d1 d2 d3 : ItemTreeData}
    (a : data_le d1 d2) (b : data_le d2 d3) : data_le d1 d3 :=
  ⟨a.1.trans b.1, a.2.1.trans b.2.1, a.2.2.1.trans b.2.2.1,
   a.2.2.2.1.trans b.2.2.2.1, a.2.2.2.2.trans b.2.2.2.2⟩

theorem lower_mod_item_data_le (ctx : Context) (it : AstModuleItem) :
    data_le ctx.data (ctx.lower_mod_item it).1.data := by
  cases it with
  | functionDef f =>
      cases hn : f.name with
      | none =>
          rw [lower_mod_item_of_name_none ctx _ (by simp [AstModuleItem.declared_name, hn])]
          exact data_le_refl _
      | some nm =>
          simp [Context.lower_mod_item, lower_function_eq ctx f nm hn, data_le]
  | structDef s =>
      cases hn : s.name with
      | none =>
          rw [lower_mod_item_of_name_none ctx _ (by simp [AstModuleItem.declared_name, hn])]
          exact data_le_refl _
      | some nm =>
          cases hk : s.kind with
          | record fs =>
              simp [Context.lower_mod_item,
                lower_struct_record_eq ctx s nm fs hn hk, data_le]
          | tuple fs =>
              simp [Context.lower_mod_item,
                lower_struct_tuple_eq ctx s nm fs hn hk, data_le]
          | unit =>
              simp [Context.lower_mod_item,
                lower_struct_unit_eq ctx s nm hn hk, data_le]
  | typeAliasDef t =>
      cases hn : t.name with
      | none =>
          rw [lower_mod_item_of_name_none ctx _ (by simp [AstModuleItem.declared_name, hn])]
          exact data_le_refl _
      | some nm =>
          simp [Context.lower_mod_item, lower_type_alias_eq ctx t nm hn, data_le]
  | constDef c =>
      cases hn : c.name with
      | none =>
          rw [lower_mod_item_of_name_none ctx _ (by simp [AstModuleItem.declared_name, hn])]
          exact data_le_refl _
      | some nm =>
          simp [Context.lower_mod_item, lower_const_def_eq ctx c nm hn, data_le]

theorem lower_items_list_data_le :
    ∀ (items : List AstModuleItem) (ctx : Context),
    data_le ctx.data (ctx.lower_items_list items).1.data
  | [], ctx => data_le_refl _
  | it :: rest, ctx => by
      rcases hx : ctx.lower_mod_item it with ⟨ctx1, mi⟩
      rw [Context.lower_items_list, hx]
      dsimp only
      rcases hr : ctx1.lower_items_list rest with ⟨ctx2, tl⟩
      dsimp only
      have h1 := lower_mod_item_data_le ctx it
      rw [hx] at h1
      have h2 := lower_items_list_data_le rest ctx1
      rw [hr] at h2
      exact data_le_trans h1 h2

theorem mod_item_valid_mono {d1 d2 : ItemTreeData} (h : data_le d1 d2)
    (m : ModItem) (hv : d1.mod_item_valid m) : d2.mod_item_valid m := by
  cases m with
  | function i => exact lt_of_lt_of_le hv h.1
  | struct i => exact lt_of_lt_of_le hv h.2.1
  | typeAlias i => exact lt_of_lt_of_le hv h.2.2.1
  | const i => exact lt_of_lt_of_le hv h.2.2.2.1

theorem lower_mod_item_emit_valid (ctx : Context) (it : AstModuleItem)
    (ctx' : Context) (m : ModItem) (h : ctx.lower_mod_item it = (ctx', some m)) :
    ctx'.data.mod_item_valid m := by
  cases it with
  | functionDef f =>
      cases hn : f.name with
      | none => rw [lower_mod_item_of_name_none ctx _ (by simp [AstModuleItem.declared_name, hn])] at h; exact absurd h.symm (by simp)
      | some nm =>
          simp [Context.lower_mod_item, lower_function_eq ctx f nm hn] at h
          obtain ⟨hc, hm⟩ := h
          subst hm
          rw [← hc]
          simp [ItemTreeData.mod_item_valid, lower_function_eq ctx f nm hn]
  | structDef s =>
      cases hn : s.name with
      | none => rw [lower_mod_item_of_name_none ctx _ (by simp [AstModuleItem.declared_name, hn])] at h; exact absurd h.symm (by simp)
      | some nm =>
          cases hk : s.kind with
          | record fs =>
              simp [Context.lower_mod_item, lower_struct_record_eq ctx s nm fs hn hk] at h
              obtain ⟨hc, hm⟩ := h
              subst hm
              rw [← hc]
              simp [ItemTreeData.mod_item_valid, lower_struct_record_eq ctx s nm fs hn hk]
          | tuple fs =>
              simp [Context.lower_mod_item, lower_struct_tuple_eq ctx s nm fs hn hk] at h
              obtain ⟨hc, hm⟩ := h
              subst hm
              rw [← hc]
              simp [ItemTreeData.mod_item_valid, lower_struct_tuple_eq ctx s nm fs hn hk]
          | unit =>
              simp [Context.lower_mod_item, lower_struct_unit_eq ctx s nm hn hk] at h
              obtain ⟨hc, hm⟩ := h
              subst hm
              rw [← hc]
              simp [ItemTreeData.mod_item_valid, lower_struct_unit_eq ctx s nm hn hk]
  | typeAliasDef t =>
      cases hn : t.name with
      | none => rw [lower_mod_item_of_name_none ctx _ (by simp [AstModuleItem.declared_name, hn])] at h; exact absurd h.symm (by simp)
      | some nm =>
          simp [Context.lower_mod_item, lower_type_alias_eq ctx t nm hn] at h
          obtain ⟨hc, hm⟩ := h
          subst hm
          rw [← hc]
          simp [ItemTreeData.mod_item_valid, lower_type_alias_eq ctx t nm hn]
  | constDef c =>
      cases hn : c.name with
      | none => rw [lower_mod_item_of_name_none ctx _ (by simp [AstModuleItem.declared_name, hn])] at h; exact absurd h.symm (by simp)
      | some nm =>
          simp [Context.lower_mod_item, lower_const_def_eq ctx c nm hn] at h
          obtain ⟨hc, hm⟩ := h
          subst hm
          rw [← hc]
          simp [ItemTreeData.mod_item_valid, lower_const_def_eq ctx c nm hn]

theorem range_ok_mono {flen flen' : Nat} (h : flen ≤ flen') (f : Fields)
    (hf : f.range_ok flen) : f.range_ok flen' := by
  cases f <;> simp [Fields.range_ok] at hf ⊢ <;> omega

theorem range_ok_of_range_of {flen : Nat} {f : Fields} {r : Nat × Nat}
    (hf : f.range_ok flen) (hr : f.range_of = some r) :
    r.1 ≤ r.2 ∧ r.2 ≤ flen := by
  cases f with
  | record s e =>
      simp only [Fields.range_of, Option.some.injEq] at hr
      subst hr
      simpa [Fields.range_ok] using hf
  | tuple s e =>
      simp only [Fields.range_of, Option.some.injEq] at hr
      subst hr
      simpa [Fields.range_ok] using hf
  | unit => simp [Fields.range_of] at hr

theorem struct_ranges_ordered_snoc (structs : List Struct) (flen : Nat)
    (st : Struct) (flen' : Nat) (hinv : struct_ranges_ordered structs flen)
    (hle : flen ≤ flen') (hok : st.fields.range_ok flen')
    (hstart : ∀ r, st.fields.range_of = some r → flen ≤ r.1) :
    struct_ranges_ordered (structs ++ [st]) flen' := by
  constructor
  · intro s hs
    rcases List.mem_append.1 hs with hs | hs
    · exact range_ok_mono hle _ (hinv.1 s hs)
    · rcases List.mem_singleton.1 hs with rfl
      exact hok
  · intro i j si sj ri rj hij hi hj hri hrj
    have hjlen : j < structs.length + 1 := by
      have := (List.getElem?_eq_some.1 hj).1
      simpa using this
    have hilt : i < structs.length := by omega
    have hi' : structs[i]? = some si := by
      rw [List.getElem?_append_left hilt] at hi; exact hi
    rcases Nat.lt_or_ge j structs.length with hjlt | hjge
    · have hj' : structs[j]? = some sj := by
        rw [List.getElem?_append_left hjlt] at hj; exact hj
      exact hinv.2 i j si sj ri rj hij hi' hj' hri hrj
    · have hj0 : j = structs.length := by omega
      subst hj0
      rw [List.getElem?_concat_length] at hj
      rcases Option.some.injEq .. ▸ hj with rfl
      have hsi : si ∈ structs := List.getElem?_mem hi'
      have h1 := range_ok_of_range_of (hinv.1 si hsi) hri
      have h2 := hstart rj hrj
      omega

theorem lower_mod_item_inv (ctx : Context) (it : AstModuleItem)
    (hinv : ctx_inv ctx) : ctx_inv (ctx.lower_mod_item it).1 := by
  cases it with
  | functionDef f =>
      cases hn : f.name with
      | none =>
          rw [lower_mod_item_of_name_none ctx _ (by simp [AstModuleItem.declared_name, hn])]
          exact hinv
      | some nm =>
          simpa [ctx_inv, Context.lower_mod_item, lower_function_eq ctx f nm hn]
            using hinv
  | structDef s =>
      cases hn : s.name with
      | none =>
          rw [lower_mod_item_of_name_none ctx _ (by simp [AstModuleItem.declared_name, hn])]
          exact hinv
      | some nm =>
          cases hk : s.kind with
          | record fs =>
              have heq := lower_struct_record_eq ctx s nm fs hn hk
              simp only [ctx_inv, Context.lower_mod_item, heq, List.length_append]
              exact struct_ranges_ordered_snoc _ _ _ _ hinv
                (by omega)
                (by simp [Fields.range_ok])
                (by intro r hr
                    simp only [Fields.range_of, Option.some.injEq] at hr
                    subst hr
                    exact Nat.le_refl _)
          | tuple fs =>
              have heq := lower_struct_tuple_eq ctx s nm fs hn hk
              simp only [ctx_inv, Context.lower_mod_item, heq, List.length_append,
                List.length_map, List.enum_length]
              exact struct_ranges_ordered_snoc _ _ _ _ hinv
                (by omega)
                (by simp [Fields.range_ok])
                (by intro r hr
                    simp only [Fields.range_of, Option.some.injEq] at hr
                    subst hr
                    exact Nat.le_refl _)
          | unit =>
              have heq := lower_struct_unit_eq ctx s nm hn hk
              simp only [ctx_inv, Context.lower_mod_item, heq]
              exact struct_ranges_ordered_snoc _ _ _ _ hinv
                (le_refl _)
                (by simp [Fields.range_ok])
                (by intro r hr; simp [Fields.range_of] at hr)
  | typeAliasDef t =>
      cases hn : t.name with
      | none =>
          rw [lower_mod_item_of_name_none ctx _ (by simp [AstModuleItem.declared_name, hn])]
          exact hinv
      | some nm =>
          simpa [ctx_inv, Context.lower_mod_item, lower_type_alias_eq ctx t nm hn]
            using hinv
  | constDef c =>
      cases hn : c.name with
      | none =>
          rw [lower_mod_item_of_name_none ctx _ (by simp [AstModuleItem.declared_name, hn])]
          exact hinv
      | some nm =>
          simpa [ctx_inv, Context.lower_mod_item, lower_const_def_eq ctx c nm hn]
            using hinv

theorem lower_items_list_inv :
    ∀ (items : List AstModuleItem) (ctx : Context), ctx_inv ctx →
    ctx_inv (ctx.lower_items_list items).1
  | [], ctx, hinv => hinv
  | it :: rest, ctx, hinv => by
      rcases hx : ctx.lower_mod_item it with ⟨ctx1, mi⟩
      rw [Context.lower_items_list, hx]
      dsimp only
      rcases hr : ctx1.lower_items_list rest with ⟨ctx2, tl⟩
      dsimp only
      have h1 := lower_mod_item_inv ctx it hinv
      rw [hx] at h1
      have h2 := lower_items_list_inv rest ctx1 h1
      rw [hr] at h2
      exact h2

theorem lower_items_list_cons (ctx : Context) (it : AstModuleItem)
    (rest : List AstModuleItem) :
    ctx.lower_items_list (it :: rest) =
      (((ctx.lower_mod_item it).1.lower_items_list rest).1,
       (ctx.lower_mod_item it).2.toList ++
         ((ctx.lower_mod_item it).1.lower_items_list rest).2) := by
  rw [Context.lower_items_list]

theorem lower_items_list_valid :
    ∀ (items : List AstModuleItem) (ctx : Context),
    ∀ m ∈ (ctx.lower_items_list items).2,
      (ctx.lower_items_list items).1.data.mod_item_valid m
  | [], _, m, hm => by simp [Context.lower_items_list] at hm
  | it :: rest, ctx, m, hm => by
      rw [lower_items_list_cons] at hm ⊢
      rcases List.mem_append.1 hm with hm | hm
      · cases hmi : (ctx.lower_mod_item it).2 with
        | none => rw [hmi] at hm; simp [Option.toList] at hm
        | some m' =>
            rw [hmi] at hm
            simp [Option.toList] at hm
            subst hm
            have hv := lower_mod_item_emit_valid ctx it (ctx.lower_mod_item it).1 m
              (by rw [← hmi])
            exact mod_item_valid_mono
              (lower_items_list_data_le rest (ctx.lower_mod_item it).1) m hv
      · exact lower_items_list_valid rest (ctx.lower_mod_item it).1 m hm

theorem lower_module_items_eq (ctx : Context) (items : List AstModuleItem) :
    ctx.lower_module_items items =
      ⟨(ctx.lower_items_list items).1.file,
       (ctx.lower_items_list items).2,
       (ctx.lower_items_list items).1.data,
       (ctx.lower_items_list items).1.diagnostics ++
         check_duplicates ((ctx.lower_items_list items).1.data.mod_item_name)
           (ctx.lower_items_list items).2 []⟩ := by
  rw [Context.lower_module_items]

theorem ctx_inv_new (file : Nat) : ctx_inv (Context.new file) := by
  refine ⟨?_, ?_⟩
  · intro s hs
    simp [Context.new, ItemTreeData.empty] at hs
  · intro i j si sj ri rj hij hi hj hri hrj
    simp [Context.new, ItemTreeData.empty] at hi

theorem lower_mod_item_diagnostics (ctx : Context) (it : AstModuleItem) :
    (ctx.lower_mod_item it).1.diagnostics = ctx.diagnostics := by
  cases it with
  | functionDef f =>
      cases hn : f.name with
      | none =>
          rw [lower_mod_item_of_name_none ctx _ (by simp [AstModuleItem.declared_name, hn])]
      | some nm => simp [Context.lower_mod_item, lower_function_eq ctx f nm hn]
  | structDef s =>
      cases hn : s.name with
      | none =>
          rw [lower_mod_item_of_name_none ctx _ (by simp [AstModuleItem.declared_name, hn])]
      | some nm =>
          cases hk : s.kind with
          | record fs => simp [Context.lower_mod_item, lower_struct_record_eq ctx s nm fs hn hk]
          | tuple fs => simp [Context.lower_mod_item, lower_struct_tuple_eq ctx s nm fs hn hk]
          | unit => simp [Context.lower_mod_item, lower_struct_unit_eq ctx s nm hn hk]
  | typeAliasDef t =>
      cases hn : t.name with
      | none =>
          rw [lower_mod_item_of_name_none ctx _ (by simp [AstModuleItem.declared_name, hn])]
      | some nm => simp [Context.lower_mod_item, lower_type_alias_eq ctx t nm hn]
  | constDef c =>
      cases hn : c.name with
      | none =>
          rw [lower_mod_item_of_name_none ctx _ (by simp [AstModuleItem.declared_name, hn])]
      | some nm => simp [Context.lower_mod_item, lower_const_def_eq ctx c nm hn]

theorem lower_items_list_diagnostics :
    ∀ (items : List AstModuleItem) (ctx : Context),
    (ctx.lower_items_list items).1.diagnostics = ctx.diagnostics
  | [], _ => rfl
  | it :: rest, ctx => by
      rw [lower_items_list_cons]
      dsimp only
      rw [lower_items_list_diagnostics rest (ctx.lower_mod_item it).1,
        lower_mod_item_diagnostics ctx it]

/-- C7: a function parameter with a missing type ascription is recorded with
the sentinel `TypeRef::Error`, and the builder is total: for any input
syntax tree it returns a well-formed `ItemTree` (every top-level reference
indexes a live arena entry and every struct field range is in bounds). -/
theorem C7_missing_param_type_error_and_builder_total :
    (∀ (ctx : Context) (f : AstFunctionDef) (nm : Name) (ps : List AstParam)
        (i : Nat) (p : AstParam),
      f.name = some nm → f.param_list = some ps → ps[i]? = some p →
      p.ascribed_type = none →
      ∃ ix fn, (ctx.lower_function f).2 = some ix ∧
        (ctx.lower_function f).1.data.functions[ix]? = some fn ∧
        fn.params[i]? = some TypeRef.error) ∧
    (∀ (file : Nat) (items : List AstModuleItem),
      ((Context.new file).lower_module_items items).wf) := by
  constructor
  · intro ctx f nm ps i p hn hps hpi hasc
    rw [lower_function_eq ctx f nm hn]
    refine ⟨ctx.data.functions.length, _, rfl,
      List.getElem?_concat_length .., ?_⟩
    dsimp only
    rw [hps]
    dsimp only
    rw [List.getElem?_map, hpi]
    simp [lower_type_ref_opt, hasc]
  · intro file items
    rw [lower_module_items_eq]
    constructor
    · intro it hit
      exact lower_items_list_valid items (Context.new file) it hit
    · intro s hs
      exact (lower_items_list_inv items (Context.new file) (ctx_inv_new file)).1 s hs

/-- Witness for C7: a one-parameter function without a type ascription, and
the well-formedness of a small concrete build. -/
theorem C7_missing_param_type_error_and_builder_total_witness :
    (∃ ix fn,
      ((Context.new 0).lower_function ⟨some "f", none, some [⟨none⟩], none, false, 0⟩).2
        = some ix ∧
      ((Context.new 0).lower_function
          ⟨some "f", none, some [⟨none⟩], none, false, 0⟩).1.data.functions[ix]?
        = some fn ∧
      fn.params[0]? = some TypeRef.error) ∧
    ((Context.new 0).lower_module_items
      [AstModuleItem.functionDef ⟨some "f", none, some [⟨none⟩], none, false, 0⟩,
       AstModuleItem.structDef ⟨some "S", none,
         AstStructKind.record [⟨some "a", none⟩], 1⟩]).wf :=
  ⟨C7_missing_param_type_error_and_builder_total.1 (Context.new 0)
      ⟨some "f", none, some [⟨none⟩], none, false, 0⟩ "f" [⟨none⟩] 0 ⟨none⟩
      rfl rfl rfl rfl,
   C7_missing_param_type_error_and_builder_total.2 0
      [AstModuleItem.functionDef ⟨some "f", none, some [⟨none⟩], none, false, 0⟩,
       AstModuleItem.structDef ⟨some "S", none,
         AstStructKind.record [⟨some "a", none⟩], 1⟩]⟩

/-- C10: a function with no return-type node, or with a return-type node
lacking a type, is stored with the sentinel `TypeRef::Empty` as its
`ret_type` — a sentinel distinct from `TypeRef::Error`. -/
theorem C10_missing_ret_type_empty :
    (∀ (ctx : Context) (f : AstFunctionDef) (nm : Name),
      f.name = some nm →
      (f.ret_type = none ∨ ∃ rt, f.ret_type = some rt ∧ rt.type_ref = none) →
      ∃ ix fn, (ctx.lower_function f).2 = some ix ∧
        (ctx.lower_function f).1.data.functions[ix]? = some fn ∧
        fn.ret_type = TypeRef.empty) ∧
    TypeRef.empty ≠ TypeRef.error := by
  constructor
  · intro ctx f nm hn hret
    rw [lower_function_eq ctx f nm hn]
    refine ⟨ctx.data.functions.length, _, rfl,
      List.getElem?_concat_length .., ?_⟩
    dsimp only
    have hb : f.ret_type.bind (fun rt => rt.type_ref) = none := by
      rcases hret with h | ⟨rt, h1, h2⟩
      · simp [h]
      · simp [h1, h2]
    rw [hb]
  · simp

/-- Witness for C10: a function with a return-type node lacking a type. -/
theorem C10_missing_ret_type_empty_witness :
    ∃ ix fn,
      ((Context.new 0).lower_function
          ⟨some "f", none, none, some ⟨none⟩, false, 0⟩).2 = some ix ∧
      ((Context.new 0).lower_function
          ⟨some "f", none, none, some ⟨none⟩, false, 0⟩).1.data.functions[ix]?
        = some fn ∧
      fn.ret_type = TypeRef.empty :=
  C10_missing_ret_type_empty.1 (Context.new 0)
    ⟨some "f", none, none, some ⟨none⟩, false, 0⟩ "f" rfl
    (Or.inr ⟨⟨none⟩, rfl, rfl⟩)

theorem filterMap_lower_record_field_length :
    ∀ (fs : List AstRecordFieldDef), (∀ f ∈ fs, f.name.isSome) →
    (fs.filterMap lower_record_field).length = fs.length
  | [], _ => rfl
  | f :: fs, h => by
      rcases Option.isSome_iff_exists.1 (h f (by simp)) with ⟨nm, hnm⟩
      rw [List.filterMap_cons]
      rw [show lower_record_field f
          = some ⟨nm, lower_type_ref_opt f.ascribed_type⟩ from by
        simp [lower_record_field, hnm]]
      simp [filterMap_lower_record_field_length fs
        (fun g hg => h g (by simp [hg]))]

/-- C5: a record struct is stored with the contiguous field range
`[start, start + K)` where `start` is the field-arena length before the
struct and `K` the number of lowered record fields (equal to the syntactic
field count when every field has a name); the lowered fields are appended
to the shared arena in declaration order; and the ranges of any two structs
lowered in one file are disjoint. -/
theorem C5_record_field_ranges :
    (∀ (ctx : Context) (s : AstStructDef) (nm : Name)
        (fs : List AstRecordFieldDef),
      s.name = some nm → s.kind = .record fs →
      ∃ ix st, (ctx.lower_struct s).2 = some ix ∧
        (ctx.lower_struct s).1.data.structs[ix]? = some st ∧
        st.fields = Fields.record ctx.data.fields.length
          (ctx.data.fields.length + (fs.filterMap lower_record_field).length) ∧
        (ctx.lower_struct s).1.data.fields
          = ctx.data.fields ++ fs.filterMap lower_record_field ∧
        ((∀ f ∈ fs, f.name.isSome) →
          (fs.filterMap lower_record_field).length = fs.length)) ∧
    (∀ (file : Nat) (items : List AstModuleItem) (i j : Nat)
        (si sj : Struct) (ri rj : Nat × Nat),
      i < j →
      ((Context.new file).lower_module_items items).data.structs[i]? = some si →
      ((Context.new file).lower_module_items items).data.structs[j]? = some sj →
      si.fields.range_of = some ri → sj.fields.range_of = some rj →
      ri.1 ≤ ri.2 ∧ rj.1 ≤ rj.2 ∧ ri.2 ≤ rj.1 ∧
        ∀ k, ri.1 ≤ k → k < ri.2 → ¬(rj.1 ≤ k ∧ k < rj.2)) := by
  constructor
  · intro ctx s nm fs hn hk
    rw [lower_struct_record_eq ctx s nm fs hn hk]
    exact ⟨ctx.data.structs.length, _, rfl, List.getElem?_concat_length .., rfl,
      rfl, filterMap_lower_record_field_length fs⟩
  · intro file items i j si sj ri rj hij hi hj hri hrj
    rw [lower_module_items_eq] at hi hj
    dsimp only at hi hj
    have hinv := lower_items_list_inv items (Context.new file) (ctx_inv_new file)
    have hpair := hinv.2 i j si sj ri rj hij hi hj hri hrj
    have hoki := range_ok_of_range_of (hinv.1 si (List.getElem?_mem hi)) hri
    have hokj := range_ok_of_range_of (hinv.1 sj (List.getElem?_mem hj)) hrj
    exact ⟨hoki.1, hokj.1, hpair, fun k h1 h2 h3 => by omega⟩

/-- Witness for C5: two record structs, the first with two named fields, the
second with one; their ranges are `[0, 2)` and `[2, 3)`. -/
theorem C5_record_field_ranges_witness :
    (∃ ix st,
      ((Context.new 0).lower_struct
          ⟨some "A", none, AstStructKind.record
            [⟨some "a", none⟩, ⟨some "b", none⟩], 0⟩).2 = some ix ∧
      ((Context.new 0).lower_struct
          ⟨some "A", none, AstStructKind.record
            [⟨some "a", none⟩, ⟨some "b", none⟩], 0⟩).1.data.structs[ix]?
        = some st ∧
      st.fields = Fields.record 0 (0 + ([⟨some "a", none⟩,
        (⟨some "b", none⟩ : AstRecordFieldDef)].filterMap
          lower_record_field).length) ∧
      ((Context.new 0).lower_struct
          ⟨some "A", none, AstStructKind.record
            [⟨some "a", none⟩, ⟨some "b", none⟩], 0⟩).1.data.fields
        = [] ++ [⟨some "a", none⟩,
            (⟨some "b", none⟩ : AstRecordFieldDef)].filterMap lower_record_field ∧
      ((∀ f ∈ [⟨some "a", none⟩, (⟨some "b", none⟩ : AstRecordFieldDef)],
          f.name.isSome) →
        ([⟨some "a", none⟩, (⟨some "b", none⟩ : AstRecordFieldDef)].filterMap
          lower_record_field).length = 2)) ∧
    (1 : Nat) ≤ 2 ∧ (2 : Nat) ≤ 3 ∧ (2 : Nat) ≤ 2 ∧
      ∀ k, (0 : Nat) ≤ k → k < 2 → ¬((2 : Nat) ≤ k ∧ k < 3) := by
  constructor
  · exact C5_record_field_ranges.1 (Context.new 0)
      ⟨some "A", none, AstStructKind.record
        [⟨some "a", none⟩, ⟨some "b", none⟩], 0⟩ "A"
      [⟨some "a", none⟩, ⟨some "b", none⟩] rfl rfl
  · have h := C5_record_field_ranges.2 0
      [AstModuleItem.structDef ⟨some "A", none, AstStructKind.record
        [⟨some "a", none⟩, ⟨some "b", none⟩], 0⟩,
       AstModuleItem.structDef ⟨some "B", none, AstStructKind.record
        [⟨some "c", none⟩], 1⟩]
      0 1 ⟨"A", 0, Fields.record 0 2, 0, StructDefKind.record⟩
        ⟨"B", 1, Fields.record 2 3, 1, StructDefKind.record⟩
      (0, 2) (2, 3) (by decide) (by decide) (by decide) rfl rfl
    have h2 := h.2.2
    exact ⟨by decide, by decide, h2.1, fun k h1 hlt => h2.2 k h1 hlt⟩

theorem find_first_cons (set : List (Name × ModItem)) (m : Name) (it : ModItem)
    (n : Name) :
    find_first ((m, it) :: set) n = if m = n then some it else find_first set n := by
  by_cases hm : m = n
  · unfold find_first
    rw [List.find?_cons_of_pos _ (by simp [hm])]
    simp [hm]
  · unfold find_first
    rw [List.find?_cons_of_neg _ (by simp [hm])]
    simp [hm]

theorem check_duplicates_filter_found (nameOf : ModItem → Name) (n : Name) :
    ∀ (items : List ModItem) (set : List (Name × ModItem)) (f : ModItem),
    find_first set n = some f →
    (check_duplicates nameOf items set).filter (fun d => d.diag_name == n)
      = (items.filter (fun it => nameOf it == n)).map
          (fun it => ItemTreeDiagnostic.duplicateDefinition n f it)
  | [], _, _, _ => rfl
  | it :: rest, set, f, hf => by
      rw [check_duplicates]
      cases hg : find_first set (nameOf it) with
      | some g =>
          dsimp only
          by_cases hn : nameOf it = n
          · have hfg : g = f := by
              rw [hn] at hg
              rw [hg] at hf
              exact Option.some.injEq .. ▸ hf
            subst hfg
            rw [List.filter_cons_of_pos
                (by simp [ItemTreeDiagnostic.diag_name, hn]),
              List.filter_cons_of_pos (by simp [hn]), List.map_cons, hn,
              check_duplicates_filter_found nameOf n rest set g
                (by rw [hn] at hg; exact hg)]
          · rw [List.filter_cons_of_neg
                (by simp [ItemTreeDiagnostic.diag_name, hn]),
              List.filter_cons_of_neg (by simp [hn])]
            exact check_duplicates_filter_found nameOf n rest set f hf
      | none =>
          dsimp only
          have hn : nameOf it ≠ n := by
            intro hcontra
            rw [hcontra] at hg
            rw [hg] at hf
            cases hf
          rw [List.filter_cons_of_neg (by simp [hn])]
          exact check_duplicates_filter_found nameOf n rest
            ((nameOf it, it) :: set) f
            (by rw [find_first_cons, if_neg hn]; exact hf)

theorem check_duplicates_filter_fresh (nameOf : ModItem → Name) (n : Name) :
    ∀ (items : List ModItem) (set : List (Name × ModItem)),
    find_first set n = none →
    (check_duplicates nameOf items set).filter (fun d => d.diag_name == n)
      = (match items.filter (fun it => nameOf it == n) with
         | [] => []
         | f :: rest =>
             rest.map (fun it => ItemTreeDiagnostic.duplicateDefinition n f it))
  | [], _, _ => rfl
  | it :: rest, set, hf => by
      rw [check_duplicates]
      cases hg : find_first set (nameOf it) with
      | some g =>
          dsimp only
          have hn : nameOf it ≠ n := by
            intro hcontra
            rw [hcontra] at hg
            rw [hg] at hf
            cases hf
          rw [List.filter_cons_of_neg
              (by simp [ItemTreeDiagnostic.diag_name, hn]),
            List.filter_cons_of_neg (by simp [hn])]
          exact check_duplicates_filter_fresh nameOf n rest set hf
      | none =>
          dsimp only
          by_cases hn : nameOf it = n
          · rw [List.filter_cons_of_pos (by simp [hn]),
              check_duplicates_filter_found nameOf n rest
                ((nameOf it, it) :: set) it
                (by rw [find_first_cons, if_pos hn])]
          · rw [List.filter_cons_of_neg (by simp [hn])]
            exact check_duplicates_filter_fresh nameOf n rest
              ((nameOf it, it) :: set)
              (by rw [find_first_cons, if_neg hn]; exact hf)

/-- C1: if the built tree's top-level list holds `N = dups.length + 1` items
whose declared name is `n` (first-declared `first`, later occurrences
`dups`), then the tree carries exactly `N − 1` `DuplicateDefinition`
diagnostics for `n`, each pairing `first` with one later occurrence in
order, and all `N` items are still members of the top-level list. -/
theorem C1_duplicate_definition_diagnostics (file : Nat)
    (items : List AstModuleItem) (tree : ItemTree)
    (htree : tree = (Context.new file).lower_module_items items)
    (n : Name) (first : ModItem) (dups : List ModItem)
    (h : tree.top_level.filter (fun it => tree.data.mod_item_name it == n)
        = first :: dups) :
    tree.diagnostics.filter (fun d => d.diag_name == n)
      = dups.map (fun it => ItemTreeDiagnostic.duplicateDefinition n first it) ∧
    (tree.diagnostics.filter (fun d => d.diag_name == n)).length + 1
      = (tree.top_level.filter (fun it => tree.data.mod_item_name it == n)).length ∧
    first ∈ tree.top_level ∧ ∀ d ∈ dups, d ∈ tree.top_level := by
  subst htree
  rw [lower_module_items_eq] at h ⊢
  dsimp only at h ⊢
  rw [lower_items_list_diagnostics items (Context.new file)]
  have hctx : (Context.new file).diagnostics = [] := rfl
  rw [hctx, List.nil_append]
  have hmain := check_duplicates_filter_fresh
    (((Context.new file).lower_items_list items).1.data.mod_item_name) n
    ((Context.new file).lower_items_list items).2 [] rfl
  rw [h] at hmain
  refine ⟨hmain, ?_, ?_, ?_⟩
  · rw [hmain, h]
    simp
  · exact List.mem_of_mem_filter (h ▸ List.mem_cons_self first dups)
  · intro d hd
    exact List.mem_of_mem_filter (h ▸ List.mem_cons_of_mem first hd)

/-- Witness for C1: the spec's concrete scenario — `struct Foo { a: i32 }`
declared twice plus an unrelated function; both structs stay in the tree and
one duplicate diagnostic pairs them. -/
theorem C1_duplicate_definition_diagnostics_witness :
    ((Context.new 0).lower_module_items
        [AstModuleItem.structDef ⟨some "Foo", none,
           AstStructKind.record [⟨some "a", some ⟨0⟩⟩], 0⟩,
         AstModuleItem.structDef ⟨some "Foo", none,
           AstStructKind.record [⟨some "a", some ⟨0⟩⟩], 1⟩,
         AstModuleItem.functionDef ⟨some "bar", none, none, none, false, 2⟩]).diagnostics.filter
      (fun d => d.diag_name == "Foo")
      = [ModItem.struct 1].map
          (fun it => ItemTreeDiagnostic.duplicateDefinition "Foo"
            (ModItem.struct 0) it) ∧
    ModItem.struct 0 ∈ ((Context.new 0).lower_module_items
        [AstModuleItem.structDef ⟨some "Foo", none,
           AstStructKind.record [⟨some "a", some ⟨0⟩⟩], 0⟩,
         AstModuleItem.structDef ⟨some "Foo", none,
           AstStructKind.record [⟨some "a", some ⟨0⟩⟩], 1⟩,
         AstModuleItem.functionDef ⟨some "bar", none, none, none, false, 2⟩]).top_level := by
  have h := C1_duplicate_definition_diagnostics 0
    [AstModuleItem.structDef ⟨some "Foo", none,
       AstStructKind.record [⟨some "a", some ⟨0⟩⟩], 0⟩,
     AstModuleItem.structDef ⟨some "Foo", none,
       AstStructKind.record [⟨some "a", some ⟨0⟩⟩], 1⟩,
     AstModuleItem.functionDef ⟨some "bar", none, none, none, false, 2⟩]
    _ rfl "Foo" (ModItem.struct 0) [ModItem.struct 1] (by decide)
  exact ⟨h.1, h.2.2.1⟩

theorem find?_zip_enumFrom {A B : Type} :
    ∀ (rs : List A) (l : List B) (n k : Nat),
    ((rs.zip (l.enumFrom n)).find? (fun x => x.2.1 == n + k))
      = (rs[k]?).bind (fun r => (l[k]?).map (fun b => (r, (n + k, b))))
  | [], l, n, k => by simp
  | r :: rs, [], n, k => by simp
  | r :: rs, b :: l, n, 0 => by
      rw [show List.enumFrom n (b :: l) = (n, b) :: List.enumFrom (n + 1) l from rfl,
        List.zip_cons_cons, List.find?_cons_of_pos _ (by simp)]
      simp
  | r :: rs, b :: l, n, k + 1 => by
      rw [show List.enumFrom n (b :: l) = (n, b) :: List.enumFrom (n + 1) l from rfl,
        List.zip_cons_cons, List.find?_cons_of_neg _ (by simp)]
      have ih := find?_zip_enumFrom rs l (n + 1) k
      simp only [Nat.succ_add] at ih
      simp only [List.getElem?_cons_succ, Nat.add_succ]
      exact ih

/-- C8: for a field of a record struct, when the syntactic field list and the
lowered field sequence agree position for position (equal lengths), `source`
returns the syntax field node at the field's lowered index together with the
parent's file identity, and the fatal `unwrap` (modelled by `none`) is
unreachable. -/
theorem C8_struct_field_source_record (file : Nat) (s : AstStructDef)
    (flds : List StructFieldData) (rs : List AstRecordFieldDef) (id : Nat)
    (r : AstRecordFieldDef) (hk : s.kind = .record rs)
    (hlen : rs.length = flds.length) (hr : rs[id]? = some r) :
    struct_field_source file s flds id = some (file, r) ∧
    struct_field_source file s flds id ≠ none := by
  have hid : id < flds.length := hlen ▸ (List.getElem?_eq_some.1 hr).1
  obtain ⟨b, hb⟩ : ∃ b, flds[id]? = some b := by
    cases hfb : flds[id]? with
    | none =>
        have := List.getElem?_eq_none_iff.1 hfb
        omega
    | some b => exact ⟨b, rfl⟩
  unfold struct_field_source
  rw [hk]
  dsimp only
  have hfind := find?_zip_enumFrom rs flds 0 id
  simp only [Nat.zero_add] at hfind
  rw [show flds.enum = List.enumFrom 0 flds from rfl, hfind, hr, hb]
  exact ⟨rfl, by simp⟩

/-- Witness for C8: a record struct with one field; the lookup returns the
field node at position 0. -/
theorem C8_struct_field_source_record_witness :
    struct_field_source 5
        ⟨some "S", none, AstStructKind.record [⟨some "a", none⟩], 0⟩
        [⟨"a"⟩] 0
      = some (5, ⟨some "a", none⟩) ∧
    struct_field_source 5
        ⟨some "S", none, AstStructKind.record [⟨some "a", none⟩], 0⟩
        [⟨"a"⟩] 0 ≠ none :=
  C8_struct_field_source_record 5
    ⟨some "S", none, AstStructKind.record [⟨some "a", none⟩], 0⟩
    [⟨"a"⟩] [⟨some "a", none⟩] 0 ⟨some "a", none⟩ rfl rfl rfl

/-- C9: for a field whose parent struct is a tuple or unit struct, the
syntactic field list is collected only for record structs, so the
zip-and-find lookup finds no match and `source` hits its fatal `unwrap`
unconditionally (modelled by `none`). -/
theorem C9_struct_field_source_non_record :
    (∀ (file : Nat) (s : AstStructDef) (flds : List StructFieldData)
        (id : Nat) (fs : List AstTupleFieldDef),
      s.kind = .tuple fs → struct_field_source file s flds id = none) ∧
    (∀ (file : Nat) (s : AstStructDef) (flds : List StructFieldData)
        (id : Nat),
      s.kind = .unit → struct_field_source file s flds id = none) := by
  constructor
  · intro file s flds id fs hk
    unfold struct_field_source
    rw [hk]
    simp
  · intro file s flds id hk
    unfold struct_field_source
    rw [hk]
    simp

/-- Witness for C9: a two-field tuple struct and a unit struct; `source`
fails for any field id, here id 0 with a nonempty lowered field list. -/
theorem C9_struct_field_source_non_record_witness :
    struct_field_source 3
        ⟨some "P", none, AstStructKind.tuple [⟨none⟩, ⟨none⟩], 0⟩
        [⟨"0"⟩, ⟨"1"⟩] 0 = none ∧
    struct_field_source 3
        ⟨some "U", none, AstStructKind.unit, 1⟩ [] 0 = none :=
  ⟨C9_struct_field_source_non_record.1 3
      ⟨some "P", none, AstStructKind.tuple [⟨none⟩, ⟨none⟩], 0⟩
      [⟨"0"⟩, ⟨"1"⟩] 0 [⟨none⟩, ⟨none⟩] rfl,
   C9_struct_field_source_non_record.2 3
      ⟨some "U", none, AstStructKind.unit, 1⟩ [] 0 rfl⟩

end Mun
